import Mathlib

/-!
Verification of the splinter-proxy core against its specification.

The definitions below are a shallow embedding of the Rust sources:

* `src/protocol/mod.rs` — `ProtocolVersion::from_number`, `handle_handshake`;
* `src/protocol/v753/mod.rs` — `handle_client_status`, `handle_server_relay`,
  `handle_client_relay`, `send_packet`, `send_kick_v753`;
* `src/proxy/mod.rs` — `SplinterProxy::kick_client`, `SplinterProxy::shutdown`,
  `ClientKickReason::text`;
* `src/state.rs` — `proto_tags_to_tags`, `tags_to_proto_tags`.

Network I/O is modelled by explicit input streams (a `List` of incoming
packets, an end of list standing for a closed peer) and explicit write
outcomes (`Bool`-valued oracles standing for the success of each socket
write).  Rust `u64` identifiers become `Nat`, `i32` ids and `VarInt`s
become `Int`, and `f64` coordinates — which the modelled code only ever
copies, never computes with — become `Int`.  A Rust `HashMap` is modelled
as an association list with first-match lookup and replace-in-place
insert; where the source iterates a `HashMap` — whose iteration order
Rust leaves unspecified — the iteration sequence is an explicit oracle
parameter, constrained only to be a permutation of the map's contents;
a `bimap::BiHashMap` is a pair list whose well-formedness
predicate states that both projections are duplicate-free, exactly the
invariant `BiHashMap` maintains.  A Rust unwinding `unwrap`/`todo` is
modelled by a dedicated `panicked` outcome, kept distinct from the
recoverable `Except.error` channel that models `anyhow::Result::Err`.
-/

/-- The protocol versions the proxy supports (`src/protocol/mod.rs`). -/
inductive ProtocolVersion
  | V753
  | V754
  | V755
deriving DecidableEq, Repr

/-- `ProtocolVersion::from_number` (`src/protocol/mod.rs` lines 57–64):
753, 754 and 755 map to the corresponding variant, every other number is
an `anyhow::bail!` error. -/
def ProtocolVersion.from_number (version : Int) : Except String ProtocolVersion :=
  if version = 753 then Except.ok ProtocolVersion.V753
  else if version = 754 then Except.ok ProtocolVersion.V754
  else if version = 755 then Except.ok ProtocolVersion.V755
  else Except.error ("Invalid or unimplemented protocol version \"" ++ toString version ++ "\"")

/-- `HandshakeNextState` of the handshake packet body. -/
inductive HandshakeNextState
  | Status
  | Login
deriving DecidableEq, Repr

/-- The packet variants of protocol 753 that the embedded code inspects or
produces.  `Other` stands for every remaining kind of `Packet753`; the
embedded handlers only ever log and ignore such packets. -/
inductive Packet753
  | Handshake (version : Int) (next_state : HandshakeNextState)
  | StatusRequest
  | StatusPing (payload : Int)
  | StatusResponse (response : String)
  | StatusPong (payload : Int)
  | LoginDisconnect (message : String)
  | PlayDisconnect (reason : String)
  | Other (kind : Nat)
deriving DecidableEq, Repr

/-- A raw (not yet deserialized) packet frame. -/
abbrev RawFrame := List Nat

/-- `LazyDeserializedPacket`: either a raw frame or a decoded packet
(`src/events.rs`, used by the relay loops of `src/protocol/v753/mod.rs`).
`write_packet` accepts either form. -/
inductive LazyPacket
  | raw (frame : RawFrame)
  | decoded (packet : Packet753)
deriving DecidableEq, Repr

/-- `PacketDestination`: where a relayed packet is finally written
(variants as used throughout `src/protocol/v753/mod.rs`). -/
inductive PacketDestination
  | Client
  | Server (server_id : Nat)
  | None
deriving DecidableEq, Repr

/-- Identifies the writer a dispatched packet was written to. -/
inductive WriteTarget
  | toClient
  | toServer (server_id : Nat)
deriving DecidableEq, Repr

/-- The part of the per-client connection state that `send_packet` reads:
which backend connections exist (`client.servers`, keyed by server id),
and whether each socket write succeeds (the oracles model transport
errors of `write_packet`). -/
structure SendEnv where
  servers : List Nat
  clientWriteOk : Bool
  serverWriteOk : Nat → Bool

/-- `send_packet` (`src/protocol/v753/mod.rs` lines 164–204).  Returns
the list of writes performed (each write records its target and the
packet, successful or not) together with the `anyhow::Result`:
`Client` writes to the client writer; `Server(id)` looks the backend
connection up and errors without writing when it is absent; `None`
returns `Ok` without writing. -/
def send_packet (env : SendEnv) (destination : PacketDestination)
    (lazy_packet : LazyPacket) :
    List (WriteTarget × LazyPacket) × Except String Unit :=
  match destination with
  | PacketDestination.Client =>
      ([(WriteTarget.toClient, lazy_packet)],
        if env.clientWriteOk then Except.ok ()
        else Except.error "Failed to write packet to client")
  | PacketDestination.Server server_id =>
      if env.servers.contains server_id then
        ([(WriteTarget.toServer server_id, lazy_packet)],
          if env.serverWriteOk server_id then Except.ok ()
          else Except.error "Failed to write packet to server")
      else
        ([], Except.error "Tried to redirect packet to unknown server id")
  | PacketDestination.None => ([], Except.ok ())

/-- A relay pass, as registered in the process-wide `inventory` chain
(`RelayPassFn` in `src/protocol/v753/mod.rs`): it may rewrite the packet
and reassign the destination.  The mapping-table component of its state
is abstracted away; the relay-loop claims hold for arbitrary passes. -/
structure PassState where
  packet : LazyPacket
  dest : PacketDestination

abbrev RelayPass := PassState → PassState

/-- Run the relay-pass chain in registration order (the `for pass in
inventory::iter` loops of both relay functions). -/
def runPasses (passes : List RelayPass) (st : PassState) : PassState :=
  passes.foldl (fun s pass => pass s) st

/-- The outcome of one read from a raw packet reader:
`ok none` is a closed peer, `err` a read error. -/
inductive ReadRes
  | ok (packet : Option RawFrame)
  | err (e : String)
deriving DecidableEq, Repr

/-- Whether a loop iteration breaks out of the loop or continues. -/
inductive StepControl
  | exitLoop
  | nextIter
deriving DecidableEq, Repr

/-- Observable effects of one relay-loop iteration. -/
structure StepOut where
  control : StepControl
  logs : List String
  writes : List (WriteTarget × LazyPacket)
  clientAliveAfter : Bool
deriving DecidableEq, Repr

/-- One iteration of the server→client relay loop `handle_server_relay`
(`src/protocol/v753/mod.rs` lines 124–155): break when either alive flag
is down; a read error logs and continues; a closed peer breaks; a packet
runs the pass chain starting from destination `Client` and is dispatched
by `send_packet`, whose error (if any) is logged before continuing.  The
iteration never changes the client alive flag. -/
def serverRelayStep (env : SendEnv) (passes : List RelayPass)
    (clientAlive serverConnAlive : Bool) (read : ReadRes) : StepOut :=
  if !clientAlive || !serverConnAlive then
    ⟨StepControl.exitLoop, [], [], clientAlive⟩
  else
    match read with
    | ReadRes.err _ =>
        ⟨StepControl.nextIter, ["Failed to read packet from server"], [], clientAlive⟩
    | ReadRes.ok Option.none => ⟨StepControl.exitLoop, [], [], clientAlive⟩
    | ReadRes.ok (Option.some raw_packet) =>
        let ps := runPasses passes ⟨LazyPacket.raw raw_packet, PacketDestination.Client⟩
        let sent := send_packet env ps.dest ps.packet
        ⟨StepControl.nextIter,
          match sent.2 with
          | Except.error _ => ["Sending packet from server failure"]
          | Except.ok _ => [],
          sent.1, clientAlive⟩

/-- One iteration of the client→server relay loop `handle_client_relay`
(`src/protocol/v753/mod.rs` lines 230–266): same shape as
`serverRelayStep`, with only the client alive flag checked and the
initial destination `Server(active_server_id)`. -/
def clientRelayStep (env : SendEnv) (passes : List RelayPass)
    (clientAlive : Bool) (activeServerId : Nat) (read : ReadRes) : StepOut :=
  if !clientAlive then
    ⟨StepControl.exitLoop, [], [], clientAlive⟩
  else
    match read with
    | ReadRes.err _ =>
        ⟨StepControl.nextIter, ["Failed to read packet from client"], [], clientAlive⟩
    | ReadRes.ok Option.none => ⟨StepControl.exitLoop, [], [], clientAlive⟩
    | ReadRes.ok (Option.some raw_packet) =>
        let ps := runPasses passes
          ⟨LazyPacket.raw raw_packet, PacketDestination.Server activeServerId⟩
        let sent := send_packet env ps.dest ps.packet
        ⟨StepControl.nextIter,
          match sent.2 with
          | Except.error _ => ["Sending packet from client failure"]
          | Except.ok _ => [],
          sent.1, clientAlive⟩

/-- C1: for every final destination, `send_packet` performs exactly zero
or one write: `Client` writes once to the client writer; `Server(id)`
writes once to backend `id` when that connection exists and otherwise
performs no write and reports a non-fatal error; `None` performs no
write and succeeds silently. -/
theorem send_packet_exactly_one_write (env : SendEnv) (p : LazyPacket) :
    (∀ d : PacketDestination, (send_packet env d p).1.length ≤ 1)
    ∧ (send_packet env PacketDestination.Client p).1 = [(WriteTarget.toClient, p)]
    ∧ (∀ id : Nat, env.servers.contains id = true →
        (send_packet env (PacketDestination.Server id) p).1 = [(WriteTarget.toServer id, p)])
    ∧ (∀ id : Nat, env.servers.contains id = false →
        (send_packet env (PacketDestination.Server id) p).1 = []
          ∧ (send_packet env (PacketDestination.Server id) p).2.isOk = false)
    ∧ (send_packet env PacketDestination.None p).1 = []
    ∧ (send_packet env PacketDestination.None p).2.isOk = true := by
  refine ⟨?_, rfl, ?_, ?_, rfl, rfl⟩
  · intro d
    cases d with
    | Client => simp [send_packet]
    | Server id =>
        by_cases h : id ∈ env.servers <;> simp [send_packet, h]
    | None => simp [send_packet]
  · intro id h
    have h' : id ∈ env.servers := by simpa using h
    simp [send_packet, h']
  · intro id h
    have h' : ¬id ∈ env.servers := by simpa using h
    simp [send_packet, h', Except.isOk, Except.toBool]

/-- Witness for C1 at a concrete environment: one backend connection with
id 3, destinations `Client`, `Server 3`, `Server 5` and `None`. -/
theorem send_packet_exactly_one_write_witness :
    (send_packet ⟨[3], true, fun _ => true⟩ (PacketDestination.Server 5)
        (LazyPacket.raw [0])).1 = []
    ∧ (send_packet ⟨[3], true, fun _ => true⟩ (PacketDestination.Server 5)
        (LazyPacket.raw [0])).2.isOk = false
    ∧ (send_packet ⟨[3], true, fun _ => true⟩ (PacketDestination.Server 3)
        (LazyPacket.raw [0])).1 = [(WriteTarget.toServer 3, LazyPacket.raw [0])]
    ∧ (send_packet ⟨[3], true, fun _ => true⟩ PacketDestination.Client
        (LazyPacket.raw [0])).1 = [(WriteTarget.toClient, LazyPacket.raw [0])] := by
  have h := send_packet_exactly_one_write ⟨[3], true, fun _ => true⟩ (LazyPacket.raw [0])
  exact ⟨(h.2.2.2.1 5 (by decide)).1, (h.2.2.2.1 5 (by decide)).2,
    h.2.2.1 3 (by decide), h.2.1⟩

/-- C2, counterexample: in `handle_server_relay`, a failed write to the
primary client writer (destination `Client`, `clientWriteOk = false`) is
merely logged and the iteration continues with the client still alive —
the loop does not exit, and the client is not marked not-alive, contrary
to the claim. -/
theorem relay_client_write_error_continues_counterexample :
    serverRelayStep ⟨[], false, fun _ => false⟩ [] true true
        (ReadRes.ok (Option.some [0]))
      = ⟨StepControl.nextIter, ["Sending packet from server failure"],
          [(WriteTarget.toClient, LazyPacket.raw [0])], true⟩ := by
  rfl

/-- C2, amended: in every iteration of either relay loop, a transient
read error is logged and the loop continues; a write error — including a
write error on the primary client writer — is logged and the loop
continues; the iteration never changes the client alive flag, and the
loop exits exactly when an alive flag is already down at the start of
the iteration or the peer has closed (the reader returns `None`). -/
theorem relay_loop_error_handling (env : SendEnv) (passes : List RelayPass)
    (ca sa : Bool) (activeId : Nat) (read : ReadRes) :
    ((serverRelayStep env passes ca sa read).clientAliveAfter = ca
      ∧ ((serverRelayStep env passes ca sa read).control = StepControl.exitLoop
          ↔ (ca = false ∨ sa = false ∨ read = ReadRes.ok Option.none)))
    ∧ (∀ e : String, ca = true → sa = true → read = ReadRes.err e →
        serverRelayStep env passes ca sa read
          = ⟨StepControl.nextIter, ["Failed to read packet from server"], [], true⟩)
    ∧ (∀ raw : RawFrame, ca = true → sa = true → read = ReadRes.ok (Option.some raw) →
        (serverRelayStep env passes ca sa read).control = StepControl.nextIter
          ∧ ((send_packet env
                (runPasses passes ⟨LazyPacket.raw raw, PacketDestination.Client⟩).dest
                (runPasses passes ⟨LazyPacket.raw raw, PacketDestination.Client⟩).packet).2.isOk
                = false →
              (serverRelayStep env passes ca sa read).logs
                = ["Sending packet from server failure"]))
    ∧ ((clientRelayStep env passes ca activeId read).clientAliveAfter = ca
      ∧ ((clientRelayStep env passes ca activeId read).control = StepControl.exitLoop
          ↔ (ca = false ∨ read = ReadRes.ok Option.none)))
    ∧ (∀ e : String, ca = true → read = ReadRes.err e →
        clientRelayStep env passes ca activeId read
          = ⟨StepControl.nextIter, ["Failed to read packet from client"], [], true⟩)
    ∧ (∀ raw : RawFrame, ca = true → read = ReadRes.ok (Option.some raw) →
        (clientRelayStep env passes ca activeId read).control = StepControl.nextIter
          ∧ ((send_packet env
                (runPasses passes
                  ⟨LazyPacket.raw raw, PacketDestination.Server activeId⟩).dest
                (runPasses passes
                  ⟨LazyPacket.raw raw, PacketDestination.Server activeId⟩).packet).2.isOk
                = false →
              (clientRelayStep env passes ca activeId read).logs
                = ["Sending packet from client failure"])) := by
  refine ⟨⟨?_, ?_⟩, ?_, ?_, ⟨?_, ?_⟩, ?_, ?_⟩
  · rcases read with p | e
    · cases p <;> cases ca <;> cases sa <;> simp [serverRelayStep]
    · cases ca <;> cases sa <;> simp [serverRelayStep]
  · cases ca <;> cases sa <;> rcases read with p | e <;>
      first
        | (cases p <;> simp [serverRelayStep])
        | simp [serverRelayStep]
  · intro e hca hsa hread
    subst hca; subst hsa; subst hread
    rfl
  · intro raw hca hsa hread
    subst hca; subst hsa; subst hread
    constructor
    · rfl
    · intro hfail
      simp only [serverRelayStep, Bool.not_true, Bool.or_self, Bool.false_eq_true,
        if_false, Bool.or_false]
      cases hsent : (send_packet env
          (runPasses passes ⟨LazyPacket.raw raw, PacketDestination.Client⟩).dest
          (runPasses passes ⟨LazyPacket.raw raw, PacketDestination.Client⟩).packet).2 with
      | ok a => rw [hsent] at hfail; simp [Except.isOk, Except.toBool] at hfail
      | error e =>
          simp [serverRelayStep, hsent]
  · rcases read with p | e
    · cases p <;> cases ca <;> simp [clientRelayStep]
    · cases ca <;> simp [clientRelayStep]
  · cases ca <;> rcases read with p | e <;>
      first
        | (cases p <;> simp [clientRelayStep])
        | simp [clientRelayStep]
  · intro e hca hread
    subst hca; subst hread
    rfl
  · intro raw hca hread
    subst hca; subst hread
    constructor
    · rfl
    · intro hfail
      cases hsent : (send_packet env
          (runPasses passes ⟨LazyPacket.raw raw, PacketDestination.Server activeId⟩).dest
          (runPasses passes ⟨LazyPacket.raw raw, PacketDestination.Server activeId⟩).packet).2 with
      | ok a => rw [hsent] at hfail; simp [Except.isOk, Except.toBool] at hfail
      | error e =>
          simp [clientRelayStep, hsent]

/-- Witness for C2 (amended) at a concrete iteration: a read error in
the server relay loop with both alive flags up is logged and the loop
continues. -/
theorem relay_loop_error_handling_witness :
    serverRelayStep ⟨[], true, fun _ => true⟩ [] true true (ReadRes.err "io")
      = ⟨StepControl.nextIter, ["Failed to read packet from server"], [], true⟩ := by
  exact (relay_loop_error_handling ⟨[], true, fun _ => true⟩ [] true true 0
    (ReadRes.err "io")).2.1 "io" rfl rfl rfl

/-- Connection protocol states set via `conn.set_state` (`mcproto_rs::protocol::State`). -/
inductive ConnState
  | Status
  | Login
  | Play
deriving DecidableEq, Repr

/-- The configuration fields the handshake path reads
(`proxy.config` in `src/protocol/mod.rs` and `src/protocol/v753/mod.rs`). -/
structure Config where
  improper_version_disconnect_message : String
  server_status : String
deriving DecidableEq, Repr

/-- The read loop of `handle_client_status` (`src/protocol/v753/mod.rs`
lines 80–97): a `StatusPing` is answered with a `StatusPong` carrying the
same payload and the loop breaks; a `StatusRequest` is silently ignored;
any other packet is logged (`error!`) and ignored; a closed peer (end of
input) breaks.  Returns the packets written and the log entries. -/
def statusLoop : List Packet753 → List Packet753 × List String
  | [] => ([], [])
  | Packet753.StatusPing payload :: _ => ([Packet753.StatusPong payload], [])
  | Packet753.StatusRequest :: rest => statusLoop rest
  | _ :: rest =>
      let out := statusLoop rest
      (out.1, "Unexpected packet" :: out.2)

/-- `handle_client_status` (`src/protocol/v753/mod.rs` lines 70–99):
set the connection state to `Status`, write one `StatusResponse` with the
configured payload, then run the read loop. -/
def handle_client_status (config : Config) (input : List Packet753) :
    List Packet753 × List String × List ConnState :=
  let out := statusLoop input
  (Packet753.StatusResponse config.server_status :: out.1, out.2, [ConnState.Status])

/-- Which version-specific handler `handle_handshake` delegates to. -/
inductive Handler
  | status753
  | login753
deriving DecidableEq, Repr

/-- The result of `handle_handshake`: `ok`/`err` model `anyhow::Result`,
`panicked` models the `todo!()` arms for protocol 755. -/
inductive HsOutcome
  | ok
  | err (msg : String)
  | panicked
deriving DecidableEq, Repr

/-- Observable effects of `handle_handshake`. -/
structure HsOut where
  writes : List Packet753
  logs : List String
  states : List ConnState
  outcome : HsOutcome
  delegated : Option Handler
deriving DecidableEq, Repr

/-- `handle_handshake` (`src/protocol/mod.rs` lines 119–189), applied to
the connection's incoming packet stream.  An empty stream (`None` from
the first read) returns `Ok` doing nothing; a non-handshake first packet
is an error; a `Handshake` dispatches on `next_state` and
`ProtocolVersion::from_number`:

* `Status` with 753/754 or with an unresolved version runs
  `v753::handle_client_status` on the rest of the stream; in the
  unresolved case the `UnsupportedVersion` error is raised only after
  that reply has been written (`bail!` follows the call);
* `Status`/`Login` with 755 is `todo!()` — a panic;
* `Login` with 753/754 delegates to `v753::handle_client_login`
  (whose interior is outside the relayed paths modelled here);
* `Login` with an unresolved version sets the connection state to
  `Login`, writes a `LoginDisconnect` carrying the configured
  improper-version message, and returns `Ok`. -/
def handle_handshake (config : Config) (input : List Packet753) : HsOut :=
  match input with
  | [] => ⟨[], [], [], HsOutcome.ok, Option.none⟩
  | Packet753.Handshake version next_state :: rest =>
      (match next_state with
      | HandshakeNextState.Status =>
          (match ProtocolVersion.from_number version with
          | Except.ok ProtocolVersion.V753 | Except.ok ProtocolVersion.V754 =>
              let out := handle_client_status config rest
              ⟨out.1, out.2.1, out.2.2, HsOutcome.ok, Option.some Handler.status753⟩
          | Except.ok ProtocolVersion.V755 =>
              ⟨[], [], [], HsOutcome.panicked, Option.none⟩
          | Except.error _ =>
              let out := handle_client_status config rest
              ⟨out.1, out.2.1, out.2.2, HsOutcome.err "Invalid handshake version",
                Option.some Handler.status753⟩)
      | HandshakeNextState.Login =>
          (match ProtocolVersion.from_number version with
          | Except.ok ProtocolVersion.V753 | Except.ok ProtocolVersion.V754 =>
              ⟨[], [], [], HsOutcome.ok, Option.some Handler.login753⟩
          | Except.ok ProtocolVersion.V755 =>
              ⟨[], [], [], HsOutcome.panicked, Option.none⟩
          | Except.error _ =>
              ⟨[Packet753.LoginDisconnect config.improper_version_disconnect_message],
                [], [ConnState.Login], HsOutcome.ok, Option.none⟩))
  | _ :: _ => ⟨[], [], [], HsOutcome.err "Expected a handshake packet", Option.none⟩

/-- The payload of a packet when it is a `StatusPing`. -/
def pingPayload : Packet753 → Option Int
  | Packet753.StatusPing payload => Option.some payload
  | _ => Option.none

/-- Whether a packet is a `StatusPing`. -/
def isPing (p : Packet753) : Bool := (pingPayload p).isSome

/-- Whether a packet is a `StatusRequest`. -/
def isStatusReq : Packet753 → Bool
  | Packet753.StatusRequest => true
  | _ => false

/-- Whether a packet is a `StatusResponse`. -/
def isStatusResponse : Packet753 → Bool
  | Packet753.StatusResponse _ => true
  | _ => false

/-- Whether a packet is a Login-phase disconnect. -/
def isLoginDisconnect : Packet753 → Bool
  | Packet753.LoginDisconnect _ => true
  | _ => false

/-- The payload of the first `StatusPing` in a stream, if any
(stated from the claim's words, to compare the handler against). -/
def firstPingPayload : List Packet753 → Option Int
  | [] => Option.none
  | p :: rest =>
      match pingPayload p with
      | Option.some payload => Option.some payload
      | Option.none => firstPingPayload rest

/-- The pong reply the claim prescribes for a stream: echo the first
ping's payload, nothing when the peer closes without pinging. -/
def pongOfFirstPing : Option Int → List Packet753
  | Option.some payload => [Packet753.StatusPong payload]
  | Option.none => []

/-- The log entries the claim prescribes: one per packet that precedes
the first ping and is neither a `StatusRequest` nor a `StatusPing`. -/
def expectedStatusLogs (input : List Packet753) : List String :=
  ((input.takeWhile fun p => !isPing p).filter fun p => !isStatusReq p).map
    fun _ => "Unexpected packet"

/-- The status read loop writes exactly the echo of the first ping and
logs exactly the unexpected packets that precede it. -/
theorem statusLoop_spec (input : List Packet753) :
    (statusLoop input).1 = pongOfFirstPing (firstPingPayload input)
      ∧ (statusLoop input).2 = expectedStatusLogs input := by
  induction input with
  | nil => exact ⟨rfl, rfl⟩
  | cons p rest ih =>
      cases p <;>
        simp [statusLoop, firstPingPayload, pongOfFirstPing, expectedStatusLogs,
          pingPayload, isPing, isStatusReq, List.takeWhile, List.filter, ih.1, ih.2]

/-- The echoed pong list never contains a `StatusResponse`. -/
theorem pongOfFirstPing_no_response (o : Option Int) :
    (pongOfFirstPing o).filter isStatusResponse = [] := by
  cases o <;> simp [pongOfFirstPing, isStatusResponse, List.filter]

/-- The echoed pong list never contains a `LoginDisconnect`. -/
theorem pongOfFirstPing_no_login_disconnect (o : Option Int) :
    (pongOfFirstPing o).filter isLoginDisconnect = [] := by
  cases o <;> simp [pongOfFirstPing, isLoginDisconnect, List.filter]

/-- C3 (amended: version 755, whose status handling is an unimplemented
`todo!()`, excluded): a connection whose first packet is a
`Handshake(version, Status)` — including an unresolved version — receives
exactly one `StatusResponse` and no Login disconnect; subsequent
`StatusRequest` packets are silently ignored, other packet kinds are
logged and ignored, the first `StatusPing`'s payload is echoed back as a
`StatusPong`, and the handler then returns; for an unresolved version the
`UnsupportedVersion` error surfaces only in the returned outcome, after
the reply has been written. -/
theorem handshake_status_reply (config : Config) (version : Int)
    (rest : List Packet753) (h755 : version ≠ 755) :
    (handle_handshake config
        (Packet753.Handshake version HandshakeNextState.Status :: rest)).writes
      = Packet753.StatusResponse config.server_status ::
          pongOfFirstPing (firstPingPayload rest)
    ∧ ((handle_handshake config
        (Packet753.Handshake version HandshakeNextState.Status :: rest)).writes.filter
          isStatusResponse).length = 1
    ∧ (handle_handshake config
        (Packet753.Handshake version HandshakeNextState.Status :: rest)).writes.filter
          isLoginDisconnect = []
    ∧ (handle_handshake config
        (Packet753.Handshake version HandshakeNextState.Status :: rest)).logs
      = expectedStatusLogs rest
    ∧ (handle_handshake config
        (Packet753.Handshake version HandshakeNextState.Status :: rest)).states
      = [ConnState.Status]
    ∧ (handle_handshake config
        (Packet753.Handshake version HandshakeNextState.Status :: rest)).outcome
      = (match ProtocolVersion.from_number version with
          | Except.error _ => HsOutcome.err "Invalid handshake version"
          | Except.ok _ => HsOutcome.ok) := by
  have hw := (statusLoop_spec rest).1
  have hl := (statusLoop_spec rest).2
  by_cases h1 : version = 753
  · subst h1
    refine ⟨?_, ?_, ?_, ?_, ?_, ?_⟩ <;>
      simp [handle_handshake, ProtocolVersion.from_number, handle_client_status,
        hw, hl, List.filter, isStatusResponse, isLoginDisconnect,
        pongOfFirstPing_no_response, pongOfFirstPing_no_login_disconnect]
  · by_cases h2 : version = 754
    · subst h2
      refine ⟨?_, ?_, ?_, ?_, ?_, ?_⟩ <;>
        simp [handle_handshake, ProtocolVersion.from_number, handle_client_status,
          hw, hl, List.filter, isStatusResponse, isLoginDisconnect,
          pongOfFirstPing_no_response, pongOfFirstPing_no_login_disconnect]
    · refine ⟨?_, ?_, ?_, ?_, ?_, ?_⟩ <;>
        simp [handle_handshake, ProtocolVersion.from_number, handle_client_status,
          h1, h2, h755, hw, hl, List.filter, isStatusResponse, isLoginDisconnect,
          pongOfFirstPing_no_response, pongOfFirstPing_no_login_disconnect]

/-- Witness for C3 (amended) at a concrete probe: version 1 (unresolved),
then `StatusRequest`, an unexpected packet, and `StatusPing 42`. -/
theorem handshake_status_reply_witness :
    (handle_handshake ⟨"improper version", "motd"⟩
        (Packet753.Handshake 1 HandshakeNextState.Status ::
          [Packet753.StatusRequest, Packet753.Other 9, Packet753.StatusPing 42])).writes
      = Packet753.StatusResponse "motd" ::
          pongOfFirstPing (firstPingPayload
            [Packet753.StatusRequest, Packet753.Other 9, Packet753.StatusPing 42]) :=
  (handshake_status_reply ⟨"improper version", "motd"⟩ 1
    [Packet753.StatusRequest, Packet753.Other 9, Packet753.StatusPing 42]
    (by decide)).1

/-- C3, counterexample to the claim as stated: a `Handshake(755, Status)`
resolves in the registry, yet its status arm is `todo!()` — the handler
panics, writes nothing, and in particular does not send the single
`StatusResponse` the claim promises for every Status handshake. -/
theorem handshake_status_755_counterexample :
    (handle_handshake ⟨"improper version", "motd"⟩
        [Packet753.Handshake 755 HandshakeNextState.Status]).writes = []
    ∧ (handle_handshake ⟨"improper version", "motd"⟩
        [Packet753.Handshake 755 HandshakeNextState.Status]).outcome
      = HsOutcome.panicked
    ∧ ProtocolVersion.from_number 755 = Except.ok ProtocolVersion.V755 :=
  ⟨rfl, rfl, rfl⟩

/-- C4: a `Handshake(version, Login)` whose version does not resolve
(any number other than 753, 754, 755) switches the connection into the
`Login` state, writes one Login-phase disconnect carrying the configured
`improper_version_disconnect_message`, returns `Ok` (the connection then
closes), and never reaches the `Play` state. -/
theorem handshake_login_bad_version (config : Config) (version : Int)
    (rest : List Packet753) (h753 : version ≠ 753) (h754 : version ≠ 754)
    (h755 : version ≠ 755) :
    handle_handshake config
        (Packet753.Handshake version HandshakeNextState.Login :: rest)
      = ⟨[Packet753.LoginDisconnect config.improper_version_disconnect_message],
          [], [ConnState.Login], HsOutcome.ok, Option.none⟩
    ∧ ConnState.Play ∉ (handle_handshake config
        (Packet753.Handshake version HandshakeNextState.Login :: rest)).states := by
  constructor
  · simp [handle_handshake, ProtocolVersion.from_number, h753, h754, h755]
  · simp [handle_handshake, ProtocolVersion.from_number, h753, h754, h755]

/-- Witness for C4 at version 1 with a trailing `LoginStart`-like packet. -/
theorem handshake_login_bad_version_witness :
    handle_handshake ⟨"improper version", "motd"⟩
        (Packet753.Handshake 1 HandshakeNextState.Login :: [Packet753.Other 2])
      = ⟨[Packet753.LoginDisconnect "improper version"], [], [ConnState.Login],
          HsOutcome.ok, Option.none⟩ :=
  (handshake_login_bad_version ⟨"improper version", "motd"⟩ 1 [Packet753.Other 2]
    (by decide) (by decide) (by decide)).1

/-- C9: `ProtocolVersion::from_number` succeeds exactly on 753, 754 and
755 and errors on every other number, and a handshake negotiated at 754
is handled identically to one negotiated at 753 (both delegate to the
753 schema handlers). -/
theorem from_number_supported_versions :
    (∀ v : Int, (ProtocolVersion.from_number v).isOk = true
        ↔ (v = 753 ∨ v = 754 ∨ v = 755))
    ∧ (∀ (config : Config) (next : HandshakeNextState) (rest : List Packet753),
        handle_handshake config (Packet753.Handshake 754 next :: rest)
          = handle_handshake config (Packet753.Handshake 753 next :: rest)) := by
  constructor
  · intro v
    unfold ProtocolVersion.from_number
    split_ifs with hval1 hval2 hval3
    · simp [Except.isOk, Except.toBool, hval1]
    · simp [Except.isOk, Except.toBool, hval2]
    · simp [Except.isOk, Except.toBool, hval3]
    · simp [Except.isOk, Except.toBool, hval1, hval2, hval3]
  · intro config next rest
    cases next <;> rfl

/-- Witness for C9: 754 is supported, 752 is not, and a concrete 754
status handshake equals the 753 one. -/
theorem from_number_supported_versions_witness :
    (ProtocolVersion.from_number 754).isOk = true
    ∧ (ProtocolVersion.from_number 752).isOk = false
    ∧ handle_handshake ⟨"improper version", "motd"⟩
        [Packet753.Handshake 754 HandshakeNextState.Status]
      = handle_handshake ⟨"improper version", "motd"⟩
        [Packet753.Handshake 753 HandshakeNextState.Status] := by
  refine ⟨(from_number_supported_versions.1 754).mpr (by decide), ?_,
    from_number_supported_versions.2 ⟨"improper version", "motd"⟩
      HandshakeNextState.Status []⟩
  have h := from_number_supported_versions.1 752
  cases hv : (ProtocolVersion.from_number 752).isOk
  · rfl
  · exact absurd ((h.mp hv).imp id id) (by decide)

/-- `HashMap` lookup, on the association-list model (first match). -/
def lookupAssoc {α β : Type} [DecidableEq α] : List (α × β) → α → Option β
  | [], _ => Option.none
  | (k, v) :: rest, key => if k = key then Option.some v else lookupAssoc rest key

/-- `HashMap::remove`, on the association-list model. -/
def removeAssoc {α β : Type} [DecidableEq α] : List (α × β) → α → List (α × β)
  | [], _ => []
  | (k, v) :: rest, key => if k = key then rest else (k, v) :: removeAssoc rest key

/-- `HashMap::insert`, on the association-list model: replace the value
in place when the key is present, append otherwise. -/
def insertAssoc {α β : Type} [DecidableEq α] (key : α) (val : β) :
    List (α × β) → List (α × β)
  | [] => [(key, val)]
  | (k, v) :: rest =>
      if k = key then (key, val) :: rest else (k, v) :: insertAssoc key val rest

theorem lookupAssoc_insertAssoc_self {α β : Type} [DecidableEq α]
    (l : List (α × β)) (key : α) (val : β) :
    lookupAssoc (insertAssoc key val l) key = Option.some val := by
  induction l with
  | nil => simp [insertAssoc, lookupAssoc]
  | cons p rest ih =>
      by_cases h : p.1 = key <;>
        simp [insertAssoc, lookupAssoc, h, ih]

theorem lookupAssoc_insertAssoc_ne {α β : Type} [DecidableEq α]
    (l : List (α × β)) (key other : α) (val : β) (hne : key ≠ other) :
    lookupAssoc (insertAssoc key val l) other = lookupAssoc l other := by
  induction l with
  | nil => simp [insertAssoc, lookupAssoc, hne]
  | cons p rest ih =>
      by_cases h : p.1 = key
      · simp [insertAssoc, lookupAssoc, h, hne]
      · simp [insertAssoc, lookupAssoc, h, ih]

theorem lookupAssoc_removeAssoc_ne {α β : Type} [DecidableEq α]
    (l : List (α × β)) (key other : α) (hne : other ≠ key) :
    lookupAssoc (removeAssoc l key) other = lookupAssoc l other := by
  induction l with
  | nil => simp [removeAssoc]
  | cons p rest ih =>
      by_cases h : p.1 = key
      · have hko : ¬key = other := fun hc => hne hc.symm
        simp [removeAssoc, lookupAssoc, h, hko]
      · simp [removeAssoc, lookupAssoc, h, ih]

theorem lookupAssoc_eq_none_of_not_mem {α β : Type} [DecidableEq α]
    (l : List (α × β)) (key : α) (h : key ∉ l.map Prod.fst) :
    lookupAssoc l key = Option.none := by
  induction l with
  | nil => rfl
  | cons q rest ih =>
      simp only [List.map_cons, List.mem_cons, not_or] at h
      have hq : ¬q.1 = key := fun hc => h.1 hc.symm
      simp [lookupAssoc, hq, ih h.2]

theorem lookupAssoc_removeAssoc_self {α β : Type} [DecidableEq α]
    (l : List (α × β)) (key : α) (hnodup : (l.map Prod.fst).Nodup) :
    lookupAssoc (removeAssoc l key) key = Option.none := by
  induction l with
  | nil => simp [removeAssoc, lookupAssoc]
  | cons p rest ih =>
      simp only [List.map_cons, List.nodup_cons] at hnodup
      by_cases h : p.1 = key
      · have : lookupAssoc rest key = Option.none :=
          lookupAssoc_eq_none_of_not_mem rest key (h ▸ hnodup.1)
        simpa [removeAssoc, h] using this
      · simp [removeAssoc, lookupAssoc, h, ih hnodup.2]

theorem mem_removeAssoc {α β : Type} [DecidableEq α]
    (l : List (α × β)) (key : α) (p : α × β) (hp : p ∈ removeAssoc l key) :
    p ∈ l := by
  induction l with
  | nil => simp [removeAssoc] at hp
  | cons q rest ih =>
      by_cases h : q.1 = key
      · simp only [removeAssoc, if_pos h] at hp
        exact List.mem_cons_of_mem q hp
      · simp only [removeAssoc, if_neg h, List.mem_cons] at hp
        rcases hp with hp | hp
        · exact hp ▸ List.mem_cons_self q rest
        · exact List.mem_cons_of_mem q (ih hp)

theorem nodup_removeAssoc {α β : Type} [DecidableEq α]
    (l : List (α × β)) (key : α) (hnodup : (l.map Prod.fst).Nodup) :
    ((removeAssoc l key).map Prod.fst).Nodup := by
  induction l with
  | nil => simp [removeAssoc]
  | cons p rest ih =>
      simp only [List.map_cons, List.nodup_cons] at hnodup
      by_cases h : p.1 = key
      · simpa [removeAssoc, h] using hnodup.2
      · simp only [removeAssoc, if_neg h, List.map_cons, List.nodup_cons]
        refine ⟨?_, ih hnodup.2⟩
        intro hc
        rcases List.mem_map.mp hc with ⟨q, hq, hq1⟩
        exact hnodup.1 (List.mem_map.mpr ⟨q, mem_removeAssoc rest key q hq, hq1⟩)

theorem lookupAssoc_mem {α β : Type} [DecidableEq α]
    (l : List (α × β)) (key : α) (val : β)
    (h : lookupAssoc l key = Option.some val) : (key, val) ∈ l := by
  induction l with
  | nil => simp [lookupAssoc] at h
  | cons p rest ih =>
      rcases p with ⟨a, b⟩
      by_cases hk : a = key
      · simp only [lookupAssoc, if_pos hk, Option.some.injEq] at h
        subst h
        cases hk
        exact List.mem_cons_self _ _
      · simp only [lookupAssoc, if_neg hk] at h
        exact List.mem_cons_of_mem _ (ih h)

theorem lookupAssoc_of_mem_nodup {α β : Type} [DecidableEq α]
    (l : List (α × β)) (p : α × β) (hp : p ∈ l)
    (hnodup : (l.map Prod.fst).Nodup) :
    lookupAssoc l p.1 = Option.some p.2 := by
  induction l with
  | nil => simp at hp
  | cons q rest ih =>
      simp only [List.map_cons, List.nodup_cons] at hnodup
      rcases List.mem_cons.mp hp with hq | hq
      · subst hq
        simp [lookupAssoc]
      · have hne : ¬q.1 = p.1 := by
          intro hc
          exact hnodup.1 (List.mem_map.mpr ⟨p, hq, hc.symm⟩)
        simp only [lookupAssoc, if_neg hne]
        exact ih hq hnodup.2

/-- `ClientKickReason` (`src/proxy/mod.rs` lines 163–172). -/
inductive ClientKickReason
  | TimedOut
  | Kicked (by_ : String) (reason : Option String)
  | Shutdown
deriving DecidableEq, Repr

/-- `ClientKickReason::text` (`src/proxy/mod.rs` lines 174–190). -/
def ClientKickReason.text : ClientKickReason → String
  | ClientKickReason.TimedOut => "Timed out"
  | ClientKickReason.Kicked by_ reason =>
      "Kicked by " ++ by_ ++
        (match reason with
          | Option.some r => " because \"" ++ r ++ "\""
          | Option.none => "")
  | ClientKickReason.Shutdown => "Server shut down"

/-- `PlInfoPlayer` from the player-data collaborator: the saved position
and name of a player (the `f64` coordinates, only ever copied by the
modelled code, are carried as `Int`). -/
structure PlInfoPlayer where
  x : Int
  y : Int
  z : Int
  name : String
deriving DecidableEq, Repr

/-- The fields of `SplinterClient` that `kick_client` reads: the client's
proxy-side UUID, name and last-known position. -/
structure ClientState where
  uuid : Nat
  name : String
  x : Int
  y : Int
  z : Int
deriving DecidableEq, Repr

/-- The fields of `SplinterProxy` (`src/proxy/mod.rs` lines 39–49) that
the kick/shutdown paths touch, with UUIDs as `Nat`: the alive flag, the
`players` registry keyed by proxy UUID, the in-memory `player_data`
document, the last content written to the player-data file
(`Option.none` when nothing has been written), and a log of
`(uuid, packet)` pairs sent to clients. -/
structure ProxyState where
  alive : Bool
  players : List (Nat × ClientState)
  player_data : List (Nat × PlInfoPlayer)
  savedFile : Option (List (Nat × PlInfoPlayer))
  sent : List (Nat × Packet753)
deriving DecidableEq, Repr

/-- `SplinterProxy::kick_client` (`src/proxy/mod.rs` lines 103–127):
look the client up by UUID; when absent, fail with an error and change
nothing.  When present, send a `PlayDisconnect` carrying `reason.text()`
(`send_kick_v753`, `src/protocol/v753/mod.rs` lines 301–308; a failed
send propagates the error before any state change), clear the client's
alive flag, remove it from the registry, and record its last-known
position and name in the in-memory `player_data` document.  The document
is not written to file here. -/
def kick_client (st : ProxyState) (sendOk : Nat → Bool) (client_uuid : Nat)
    (reason : ClientKickReason) : ProxyState × Option String :=
  match lookupAssoc st.players client_uuid with
  | Option.none =>
      (st, Option.some ("Failed to find client by UUID \"" ++ toString client_uuid ++ "\""))
  | Option.some client =>
      if sendOk client.uuid then
        ({ st with
            players := removeAssoc st.players client_uuid,
            player_data := insertAssoc client.uuid
              ⟨client.x, client.y, client.z, client.name⟩ st.player_data,
            sent := st.sent ++ [(client.uuid, Packet753.PlayDisconnect reason.text)] },
          Option.none)
      else (st, Option.some "Failed to send kick")

/-- The kick loop of `SplinterProxy::shutdown`: kick every collected
UUID with reason `Shutdown`, logging (and otherwise ignoring) per-client
errors. -/
def kickAll (sendOk : Nat → Bool) : List Nat → ProxyState → ProxyState
  | [], st => st
  | u :: us, st => kickAll sendOk us (kick_client st sendOk u ClientKickReason.Shutdown).1

/-- `SplinterProxy::shutdown` (`src/proxy/mod.rs` lines 128–150):
collect the UUIDs of the players registry, kick each with reason
`Shutdown`, then persist the in-memory `player_data` document to the
player-data file (modelled from the spec: `save_player_data` writes the
whole document; a failed write, `saveOk = false`, is logged and leaves
the file as it was), and finally clear the proxy alive flag. -/
def shutdown (st : ProxyState) (sendOk : Nat → Bool) (saveOk : Bool) : ProxyState :=
  let st1 := kickAll sendOk (st.players.map Prod.fst) st
  let st2 := if saveOk then { st1 with savedFile := Option.some st1.player_data } else st1
  { st2 with alive := false }

/-- A concrete proxy state with two connected clients and nothing yet
persisted, used by the concrete instantiations below. -/
def sampleProxy : ProxyState :=
  ⟨true,
    [(1, ⟨1, "alice", 10, 64, -3⟩), (2, ⟨2, "bob", 5, 70, 8⟩)],
    [], Option.none, []⟩

/-- When the client is found and the kick packet is delivered,
`kick_client` removes it from the registry, records its position and
name in the in-memory document, and appends the disconnect to the sent
log. -/
theorem kick_client_found (st : ProxyState) (sendOk : Nat → Bool) (u : Nat)
    (reason : ClientKickReason) (c : ClientState)
    (hc : lookupAssoc st.players u = Option.some c)
    (hs : sendOk c.uuid = true) :
    kick_client st sendOk u reason
      = ({ st with
            players := removeAssoc st.players u,
            player_data := insertAssoc c.uuid ⟨c.x, c.y, c.z, c.name⟩ st.player_data,
            sent := st.sent ++ [(c.uuid, Packet753.PlayDisconnect reason.text)] },
          Option.none) := by
  simp [kick_client, hc, hs]

/-- Clients of the post-kick registry were clients of the pre-kick one. -/
theorem kick_client_players_subset (st : ProxyState) (sendOk : Nat → Bool)
    (u : Nat) (reason : ClientKickReason) (p : Nat × ClientState)
    (hp : p ∈ (kick_client st sendOk u reason).1.players) : p ∈ st.players := by
  rcases hl : lookupAssoc st.players u with _ | client
  · simpa [kick_client, hl] using hp
  · by_cases hs : sendOk client.uuid
    · rw [kick_client_found st sendOk u reason client hl hs] at hp
      exact mem_removeAssoc st.players u p hp
    · simpa [kick_client, hl, hs] using hp

/-- A kick never (re)introduces a registry entry. -/
theorem kick_client_lookup_none (st : ProxyState) (sendOk : Nat → Bool)
    (u x : Nat) (reason : ClientKickReason)
    (hx : lookupAssoc st.players x = Option.none) :
    lookupAssoc (kick_client st sendOk u reason).1.players x = Option.none := by
  rcases hl : lookupAssoc st.players u with _ | client
  · simpa [kick_client, hl] using hx
  · by_cases hs : sendOk client.uuid
    · rw [kick_client_found st sendOk u reason client hl hs]
      by_cases hxu : x = u
      · subst hxu
        rw [hx] at hl
        exact absurd hl (by simp)
      · simpa [lookupAssoc_removeAssoc_ne st.players u x hxu] using hx
    · simpa [kick_client, hl, hs] using hx

/-- Kicking one UUID leaves every other UUID's registry entry alone. -/
theorem kick_client_lookup_other (st : ProxyState) (sendOk : Nat → Bool)
    (u x : Nat) (reason : ClientKickReason) (hxu : x ≠ u) :
    lookupAssoc (kick_client st sendOk u reason).1.players x
      = lookupAssoc st.players x := by
  rcases hl : lookupAssoc st.players u with _ | client
  · simp [kick_client, hl]
  · by_cases hs : sendOk client.uuid
    · rw [kick_client_found st sendOk u reason client hl hs]
      exact lookupAssoc_removeAssoc_ne st.players u x hxu
    · simp [kick_client, hl, hs]

/-- Kicking one UUID leaves every other UUID's saved-data entry alone
(given the registry invariant that entries are keyed by their client's
own UUID). -/
theorem kick_client_player_data_other (st : ProxyState) (sendOk : Nat → Bool)
    (u x : Nat) (reason : ClientKickReason)
    (hinv : ∀ p ∈ st.players, (p.2).uuid = p.1) (hxu : x ≠ u) :
    lookupAssoc (kick_client st sendOk u reason).1.player_data x
      = lookupAssoc st.player_data x := by
  rcases hl : lookupAssoc st.players u with _ | client
  · simp [kick_client, hl]
  · by_cases hs : sendOk client.uuid
    · rw [kick_client_found st sendOk u reason client hl hs]
      have huuid : client.uuid = u := hinv (u, client) (lookupAssoc_mem st.players u client hl)
      exact lookupAssoc_insertAssoc_ne st.player_data client.uuid x
        ⟨client.x, client.y, client.z, client.name⟩ (huuid ▸ fun hc => hxu hc.symm)
    · simp [kick_client, hl, hs]

/-- The sent log only grows across a kick. -/
theorem kick_client_sent_mono (st : ProxyState) (sendOk : Nat → Bool)
    (u : Nat) (reason : ClientKickReason) (e : Nat × Packet753)
    (he : e ∈ st.sent) : e ∈ (kick_client st sendOk u reason).1.sent := by
  rcases hl : lookupAssoc st.players u with _ | client
  · simpa [kick_client, hl] using he
  · by_cases hs : sendOk client.uuid
    · rw [kick_client_found st sendOk u reason client hl hs]
      exact List.mem_append_left _ he
    · simpa [kick_client, hl, hs] using he

/-- A kick never writes the player-data file. -/
theorem kick_client_savedFile (st : ProxyState) (sendOk : Nat → Bool)
    (u : Nat) (reason : ClientKickReason) :
    (kick_client st sendOk u reason).1.savedFile = st.savedFile := by
  rcases hl : lookupAssoc st.players u with _ | client
  · simp [kick_client, hl]
  · by_cases hs : sendOk client.uuid
    · rw [kick_client_found st sendOk u reason client hl hs]
    · simp [kick_client, hl, hs]

/-- The registry-key invariant survives a kick. -/
theorem kick_client_hinv (st : ProxyState) (sendOk : Nat → Bool) (u : Nat)
    (reason : ClientKickReason) (hinv : ∀ p ∈ st.players, (p.2).uuid = p.1) :
    ∀ p ∈ (kick_client st sendOk u reason).1.players, (p.2).uuid = p.1 :=
  fun p hp => hinv p (kick_client_players_subset st sendOk u reason p hp)

/-- Registry-key distinctness survives a kick. -/
theorem kick_client_nodup (st : ProxyState) (sendOk : Nat → Bool) (u : Nat)
    (reason : ClientKickReason)
    (hnodup : (st.players.map Prod.fst).Nodup) :
    ((kick_client st sendOk u reason).1.players.map Prod.fst).Nodup := by
  rcases hl : lookupAssoc st.players u with _ | client
  · simpa [kick_client, hl] using hnodup
  · by_cases hs : sendOk client.uuid
    · rw [kick_client_found st sendOk u reason client hl hs]
      exact nodup_removeAssoc st.players u hnodup
    · simpa [kick_client, hl, hs] using hnodup

/-- Kicking a list of UUIDs not containing `u` does not disturb `u`:
an absent registry entry stays absent, sent-log entries survive, and the
saved-data entry of `u` is untouched. -/
theorem kickAll_preserve (sendOk : Nat → Bool) (us : List Nat) :
    ∀ (st : ProxyState) (u : Nat),
      (∀ p ∈ st.players, (p.2).uuid = p.1) → u ∉ us →
      ((lookupAssoc st.players u = Option.none →
          lookupAssoc (kickAll sendOk us st).players u = Option.none)
        ∧ (∀ e ∈ st.sent, e ∈ (kickAll sendOk us st).sent)
        ∧ lookupAssoc (kickAll sendOk us st).player_data u
            = lookupAssoc st.player_data u
        ∧ (kickAll sendOk us st).savedFile = st.savedFile) := by
  induction us with
  | nil => exact fun st u _ _ => ⟨fun h => h, fun e he => he, rfl, rfl⟩
  | cons u0 us ih =>
      intro st u hinv hu
      have hu0 : u ≠ u0 := fun h => hu (h ▸ List.mem_cons_self u0 us)
      have hus : u ∉ us := fun h => hu (List.mem_cons_of_mem u0 h)
      have hrec := ih (kick_client st sendOk u0 ClientKickReason.Shutdown).1 u
        (kick_client_hinv st sendOk u0 ClientKickReason.Shutdown hinv) hus
      refine ⟨?_, ?_, ?_, ?_⟩
      · intro hnone
        exact hrec.1 (kick_client_lookup_none st sendOk u0 u
          ClientKickReason.Shutdown hnone)
      · intro e he
        exact hrec.2.1 e (kick_client_sent_mono st sendOk u0
          ClientKickReason.Shutdown e he)
      · exact hrec.2.2.1.trans (kick_client_player_data_other st sendOk u0 u
          ClientKickReason.Shutdown hinv hu0)
      · exact hrec.2.2.2.trans (kick_client_savedFile st sendOk u0
          ClientKickReason.Shutdown)

/-- Kicking a duplicate-free list of UUIDs delivers, removes and records
each listed client that is present in the registry. -/
theorem kickAll_effect (sendOk : Nat → Bool) (us : List Nat) :
    ∀ (st : ProxyState),
      us.Nodup →
      (∀ p ∈ st.players, (p.2).uuid = p.1) →
      (st.players.map Prod.fst).Nodup →
      (∀ v ∈ us, sendOk v = true) →
      ∀ u ∈ us, ∀ c : ClientState, lookupAssoc st.players u = Option.some c →
        ((u, Packet753.PlayDisconnect "Server shut down") ∈ (kickAll sendOk us st).sent
          ∧ lookupAssoc (kickAll sendOk us st).players u = Option.none
          ∧ lookupAssoc (kickAll sendOk us st).player_data u
              = Option.some ⟨c.x, c.y, c.z, c.name⟩) := by
  induction us with
  | nil => intro st _ _ _ _ u hu; exact absurd hu (List.not_mem_nil u)
  | cons u0 us ih =>
      intro st hnodupU hinv hnodupP hsend u hu c hc
      have hu0us : u0 ∉ us := (List.nodup_cons.mp hnodupU).1
      rcases List.mem_cons.mp hu with hu0 | hus
      · subst hu0
        have hmem := lookupAssoc_mem st.players u c hc
        have huuid : c.uuid = u := hinv (u, c) hmem
        have hs : sendOk c.uuid = true := by
          rw [huuid]; exact hsend u (List.mem_cons_self u us)
        have hkick := kick_client_found st sendOk u ClientKickReason.Shutdown c hc hs
        have hpres := kickAll_preserve sendOk us
          (kick_client st sendOk u ClientKickReason.Shutdown).1 u
          (kick_client_hinv st sendOk u ClientKickReason.Shutdown hinv) hu0us
        refine ⟨?_, ?_, ?_⟩
        · refine hpres.2.1 _ ?_
          rw [hkick]
          exact List.mem_append_right _ (by
            rw [huuid]
            exact List.mem_singleton.mpr rfl)
        · refine hpres.1 ?_
          rw [hkick]
          exact lookupAssoc_removeAssoc_self st.players u hnodupP
        · refine hpres.2.2.1.trans ?_
          rw [hkick]
          calc lookupAssoc (insertAssoc c.uuid
                ⟨c.x, c.y, c.z, c.name⟩ st.player_data) u
              = lookupAssoc (insertAssoc u
                ⟨c.x, c.y, c.z, c.name⟩ st.player_data) u := by rw [huuid]
            _ = Option.some ⟨c.x, c.y, c.z, c.name⟩ :=
                lookupAssoc_insertAssoc_self st.player_data u _
      · have hne : u ≠ u0 := fun h => hu0us (h ▸ hus)
        have hc1 : lookupAssoc
            (kick_client st sendOk u0 ClientKickReason.Shutdown).1.players u
              = Option.some c :=
          (kick_client_lookup_other st sendOk u0 u
            ClientKickReason.Shutdown hne).trans hc
        exact ih (kick_client st sendOk u0 ClientKickReason.Shutdown).1
          (List.nodup_cons.mp hnodupU).2
          (kick_client_hinv st sendOk u0 ClientKickReason.Shutdown hinv)
          (kick_client_nodup st sendOk u0 ClientKickReason.Shutdown hnodupP)
          (fun v hv => hsend v (List.mem_cons_of_mem u0 hv))
          u hus c hc1

/-- C7: after `shutdown` (with every kick packet delivered and the file
write succeeding), every client that was in the players registry at the
time of invocation has been sent a `PlayDisconnect` reading
"Server shut down", has been removed from the registry, and has its
last-known position and name in the persisted player-data file; and the
proxy alive flag is false. -/
theorem shutdown_kicks_all (st : ProxyState) (sendOk : Nat → Bool)
    (hinv : ∀ p ∈ st.players, (p.2).uuid = p.1)
    (hnodup : (st.players.map Prod.fst).Nodup)
    (hsend : ∀ p ∈ st.players, sendOk p.1 = true) :
    (shutdown st sendOk true).alive = false
    ∧ ∀ p ∈ st.players,
        ((p.1, Packet753.PlayDisconnect "Server shut down")
            ∈ (shutdown st sendOk true).sent
          ∧ lookupAssoc (shutdown st sendOk true).players p.1 = Option.none
          ∧ ∃ d, (shutdown st sendOk true).savedFile = Option.some d
              ∧ lookupAssoc d p.1
                  = Option.some ⟨(p.2).x, (p.2).y, (p.2).z, (p.2).name⟩) := by
  constructor
  · simp [shutdown]
  · intro p hp
    have hu : p.1 ∈ st.players.map Prod.fst := List.mem_map_of_mem Prod.fst hp
    have hc : lookupAssoc st.players p.1 = Option.some p.2 :=
      lookupAssoc_of_mem_nodup st.players p hp hnodup
    have hsend' : ∀ v ∈ st.players.map Prod.fst, sendOk v = true := by
      intro v hv
      rcases List.mem_map.mp hv with ⟨q, hq, hq1⟩
      exact hq1 ▸ hsend q hq
    have he := kickAll_effect sendOk (st.players.map Prod.fst) st hnodup hinv
      hnodup hsend' p.1 hu p.2 hc
    refine ⟨?_, ?_, ?_⟩
    · simpa [shutdown] using he.1
    · simpa [shutdown] using he.2.1
    · exact ⟨(kickAll sendOk (st.players.map Prod.fst) st).player_data,
        by simp [shutdown], he.2.2⟩

/-- Witness for C7: two concrete clients, all kick packets delivered,
file write succeeding. -/
theorem shutdown_kicks_all_witness :
    (shutdown sampleProxy (fun _ => true) true).alive = false
    ∧ ∀ p ∈ sampleProxy.players,
        ((p.1, Packet753.PlayDisconnect "Server shut down")
            ∈ (shutdown sampleProxy (fun _ => true) true).sent
          ∧ lookupAssoc (shutdown sampleProxy (fun _ => true) true).players p.1
              = Option.none
          ∧ ∃ d, (shutdown sampleProxy (fun _ => true) true).savedFile = Option.some d
              ∧ lookupAssoc d p.1
                  = Option.some ⟨(p.2).x, (p.2).y, (p.2).z, (p.2).name⟩) :=
  shutdown_kicks_all sampleProxy (fun _ => true) (by decide) (by decide) (by decide)

/-- C8, counterexample to the claim as stated: kicking client 1 out of
`sampleProxy` succeeds and records the position and name in the
in-memory document, yet nothing is persisted to the player-data file
(`savedFile` is still `Option.none` after the kick). -/
theorem kick_does_not_persist_counterexample :
    (kick_client sampleProxy (fun _ => true) 1
        (ClientKickReason.Kicked "console" Option.none)).2 = Option.none
    ∧ (kick_client sampleProxy (fun _ => true) 1
        (ClientKickReason.Kicked "console" Option.none)).1.player_data
      = [(1, ⟨10, 64, -3, "alice"⟩)]
    ∧ (kick_client sampleProxy (fun _ => true) 1
        (ClientKickReason.Kicked "console" Option.none)).1.savedFile
      = Option.none :=
  ⟨rfl, rfl, rfl⟩

/-- C8, amended: after every successful kick the kicked client's
last-known position and name are recorded in the in-memory player-data
document, but the document is not persisted to file by the kick itself
(the file is only written during `shutdown`). -/
theorem kick_records_player_data (st : ProxyState) (sendOk : Nat → Bool)
    (u : Nat) (reason : ClientKickReason) (c : ClientState)
    (hc : lookupAssoc st.players u = Option.some c)
    (hs : sendOk c.uuid = true) :
    (kick_client st sendOk u reason).2 = Option.none
    ∧ lookupAssoc (kick_client st sendOk u reason).1.player_data c.uuid
        = Option.some ⟨c.x, c.y, c.z, c.name⟩
    ∧ (kick_client st sendOk u reason).1.savedFile = st.savedFile := by
  rw [kick_client_found st sendOk u reason c hc hs]
  exact ⟨rfl, lookupAssoc_insertAssoc_self st.player_data c.uuid _, rfl⟩

/-- Witness for C8 (amended): kicking client 2 of `sampleProxy`. -/
theorem kick_records_player_data_witness :
    (kick_client sampleProxy (fun _ => true) 2 ClientKickReason.TimedOut).2
        = Option.none
    ∧ lookupAssoc (kick_client sampleProxy (fun _ => true) 2
        ClientKickReason.TimedOut).1.player_data 2
        = Option.some ⟨5, 70, 8, "bob"⟩
    ∧ (kick_client sampleProxy (fun _ => true) 2
        ClientKickReason.TimedOut).1.savedFile = sampleProxy.savedFile :=
  kick_records_player_data sampleProxy (fun _ => true) 2 ClientKickReason.TimedOut
    ⟨2, "bob", 5, 70, 8⟩ (by decide) (by decide)

/-- C10: kicking a UUID that is not in the players registry fails with
an error and leaves the proxy state unchanged — no packet is sent, the
registry is untouched, and nothing is added to the player-data
document. -/
theorem kick_unknown_uuid_unchanged (st : ProxyState) (sendOk : Nat → Bool)
    (u : Nat) (reason : ClientKickReason)
    (h : lookupAssoc st.players u = Option.none) :
    (kick_client st sendOk u reason).1 = st
    ∧ (kick_client st sendOk u reason).1.sent = st.sent
    ∧ (kick_client st sendOk u reason).1.players = st.players
    ∧ (kick_client st sendOk u reason).1.player_data = st.player_data
    ∧ (kick_client st sendOk u reason).2.isSome = true := by
  refine ⟨?_, ?_, ?_, ?_, ?_⟩ <;> simp [kick_client, h]

/-- Witness for C10: UUID 99 is not connected in `sampleProxy`. -/
theorem kick_unknown_uuid_unchanged_witness :
    (kick_client sampleProxy (fun _ => true) 99 ClientKickReason.TimedOut).1
        = sampleProxy
    ∧ (kick_client sampleProxy (fun _ => true) 99 ClientKickReason.TimedOut).1.sent
        = sampleProxy.sent
    ∧ (kick_client sampleProxy (fun _ => true) 99 ClientKickReason.TimedOut).1.players
        = sampleProxy.players
    ∧ (kick_client sampleProxy (fun _ => true) 99
        ClientKickReason.TimedOut).1.player_data = sampleProxy.player_data
    ∧ (kick_client sampleProxy (fun _ => true) 99
        ClientKickReason.TimedOut).2.isSome = true :=
  kick_unknown_uuid_unchanged sampleProxy (fun _ => true) 99 ClientKickReason.TimedOut
    (by decide)

/-- The result of a Rust computation that may unwind: `panicked` models
an `unwrap()` on `None`. -/
inductive PanicOr (α : Type)
  | panicked
  | ret (val : α)
deriving DecidableEq, Repr

/-- `bimap::BiHashMap<i32, String>`, as the list of its pairs.  The
static ID dictionaries (`BLOCK_TYPE_MAP` … in `src/state.rs`) are built
this way from the JSON id/name files. -/
structure BiMap where
  pairs : List (Int × String)
deriving DecidableEq, Repr

/-- `BiHashMap::get_by_left`: the name paired with a numeric id. -/
def BiMap.get_by_left (m : BiMap) (id : Int) : Option String :=
  lookupAssoc m.pairs id

/-- Right-projection lookup on the pair list. -/
def lookupByRight {α β : Type} [DecidableEq β] : List (α × β) → β → Option α
  | [], _ => Option.none
  | (k, v) :: rest, val => if v = val then Option.some k else lookupByRight rest val

/-- `BiHashMap::get_by_right`: the numeric id paired with a name. -/
def BiMap.get_by_right (m : BiMap) (name : String) : Option Int :=
  lookupByRight m.pairs name

/-- The invariant a `BiHashMap` maintains: both projections of the pair
list are duplicate-free. -/
def BiMap.WF (m : BiMap) : Prop :=
  (m.pairs.map Prod.fst).Nodup ∧ (m.pairs.map Prod.snd).Nodup

instance (m : BiMap) : Decidable m.WF := by
  unfold BiMap.WF
  infer_instance

/-- `TagSpec`: one wire tag — a name and the numeric ids of its members
(`mcproto_rs::v1_16_3::TagSpec`, entries are `VarInt`s). -/
structure TagSpec where
  name : String
  entries : List Int
deriving DecidableEq, Repr

/-- `TagList` (`src/state.rs` line 117): a map from tag name to the
namespaced names of its members, modelled as an association list in
insertion order. -/
structure TagList where
  pairs : List (String × List String)
deriving DecidableEq, Repr

/-- Resolve each numeric id through `get_by_left(..).unwrap()`
(the `tag.entries.iter().map(..)` closure of `proto_tags_to_tags`): a
missing id panics. -/
def resolveIds (map : BiMap) : List Int → PanicOr (List String)
  | [] => PanicOr.ret []
  | id :: rest =>
      match map.get_by_left id with
      | Option.none => PanicOr.panicked
      | Option.some name =>
          match resolveIds map rest with
          | PanicOr.panicked => PanicOr.panicked
          | PanicOr.ret names => PanicOr.ret (name :: names)

/-- Resolve each name through `get_by_right(..).unwrap()` (the closure
of `tags_to_proto_tags`): a missing name panics. -/
def resolveNames (map : BiMap) : List String → PanicOr (List Int)
  | [] => PanicOr.ret []
  | name :: rest =>
      match map.get_by_right name with
      | Option.none => PanicOr.panicked
      | Option.some id =>
          match resolveNames map rest with
          | PanicOr.panicked => PanicOr.panicked
          | PanicOr.ret ids => PanicOr.ret (id :: ids)

/-- The insert loop of `proto_tags_to_tags` (`src/state.rs` lines
260–275), carrying the `HashMap` built so far. -/
def proto_tags_to_tags_aux (map : BiMap) :
    List TagSpec → List (String × List String) →
      PanicOr (List (String × List String))
  | [], acc => PanicOr.ret acc
  | tag :: rest, acc =>
      match resolveIds map tag.entries with
      | PanicOr.panicked => PanicOr.panicked
      | PanicOr.ret names =>
          proto_tags_to_tags_aux map rest (insertAssoc tag.name names acc)

/-- `proto_tags_to_tags` (`src/state.rs` lines 260–275): translate a
wire tag list to a name-based `TagList` through the static dictionary;
an id absent from the dictionary hits `.unwrap()` and panics. -/
def proto_tags_to_tags (proto_tags : List TagSpec) (map : BiMap) :
    PanicOr TagList :=
  match proto_tags_to_tags_aux map proto_tags [] with
  | PanicOr.panicked => PanicOr.panicked
  | PanicOr.ret pairs => PanicOr.ret ⟨pairs⟩

/-- The push loop of `tags_to_proto_tags` (`src/state.rs` lines
277–293). -/
def tags_to_proto_tags_aux (map : BiMap) :
    List (String × List String) → PanicOr (List TagSpec)
  | [] => PanicOr.ret []
  | (name, ids) :: rest =>
      match resolveNames map ids with
      | PanicOr.panicked => PanicOr.panicked
      | PanicOr.ret entries =>
          match tags_to_proto_tags_aux map rest with
          | PanicOr.panicked => PanicOr.panicked
          | PanicOr.ret specs => PanicOr.ret (TagSpec.mk name entries :: specs)

/-- `tags_to_proto_tags` (`src/state.rs` lines 277–293): translate a
name-based `TagList` back to wire form; a name absent from the
dictionary hits `.unwrap()` and panics.  The source iterates
`tags.0.iter()`, a `std::collections::HashMap` iteration whose order is
unspecified (randomized per process), so the sequence in which the
map's entries are yielded is an explicit oracle parameter `iter` —
constrained in the theorems below to an arbitrary permutation of the
`TagList`'s contents, never to one fixed order. -/
def tags_to_proto_tags (tags : TagList) (map : BiMap)
    (iter : List (String × List String)) (_hiter : iter.Perm tags.pairs) :
    PanicOr (List TagSpec) :=
  tags_to_proto_tags_aux map iter

/-- A successful left lookup puts the value among the right projections. -/
theorem lookupAssoc_mem_snd {α β : Type} [DecidableEq α]
    (l : List (α × β)) (k : α) (v : β)
    (h : lookupAssoc l k = Option.some v) : v ∈ l.map Prod.snd :=
  List.mem_map.mpr ⟨(k, v), lookupAssoc_mem l k v h, rfl⟩

/-- In a pair list with duplicate-free right projections, the right
lookup inverts a successful left lookup. -/
theorem lookupByRight_of_lookupAssoc {α β : Type} [DecidableEq α] [DecidableEq β]
    (l : List (α × β)) (hnodup : (l.map Prod.snd).Nodup) (k : α) (v : β)
    (h : lookupAssoc l k = Option.some v) : lookupByRight l v = Option.some k := by
  induction l with
  | nil => simp [lookupAssoc] at h
  | cons p rest ih =>
      rcases p with ⟨a, b⟩
      simp only [List.map_cons, List.nodup_cons] at hnodup
      by_cases hk : a = k
      · simp only [lookupAssoc, if_pos hk, Option.some.injEq] at h
        subst h
        simp [lookupByRight, hk]
      · simp only [lookupAssoc, if_neg hk] at h
        have hbv : ¬b = v := by
          intro hc
          exact hnodup.1 (hc ▸ lookupAssoc_mem_snd rest k v h)
        simp only [lookupByRight, if_neg hbv]
        exact ih hnodup.2 h

/-- In a well-formed dictionary, `get_by_right` inverts `get_by_left`. -/
theorem get_by_right_get_by_left (map : BiMap) (hWF : map.WF) (id : Int)
    (name : String) (h : map.get_by_left id = Option.some name) :
    map.get_by_right name = Option.some id :=
  lookupByRight_of_lookupAssoc map.pairs hWF.2 id name h

/-- Resolving the names produced by a successful id resolution recovers
the original ids, in order. -/
theorem resolveNames_resolveIds (map : BiMap) (hWF : map.WF) :
    ∀ (ids : List Int) (names : List String),
      resolveIds map ids = PanicOr.ret names →
      resolveNames map names = PanicOr.ret ids := by
  intro ids
  induction ids with
  | nil =>
      intro names h
      simp only [resolveIds, PanicOr.ret.injEq] at h
      subst h
      rfl
  | cons id rest ih =>
      intro names h
      simp only [resolveIds] at h
      cases hgl : map.get_by_left id with
      | none => rw [hgl] at h; cases h
      | some nm =>
          rw [hgl] at h
          cases hri : resolveIds map rest with
          | panicked => rw [hri] at h; cases h
          | ret ns =>
              rw [hri] at h
              simp only [PanicOr.ret.injEq] at h
              subst h
              simp only [resolveNames, get_by_right_get_by_left map hWF id nm hgl,
                ih ns hri]

/-- When every id is in the dictionary, id resolution succeeds. -/
theorem resolveIds_ret_of_present (map : BiMap) :
    ∀ ids : List Int, (∀ id ∈ ids, (map.get_by_left id).isSome = true) →
      ∃ names, resolveIds map ids = PanicOr.ret names := by
  intro ids
  induction ids with
  | nil => exact fun _ => ⟨[], rfl⟩
  | cons id rest ih =>
      intro h
      have hid := h id (List.mem_cons_self id rest)
      cases hgl : map.get_by_left id with
      | none => rw [hgl] at hid; cases hid
      | some nm =>
          obtain ⟨ns, hns⟩ := ih fun i hi => h i (List.mem_cons_of_mem id hi)
          exact ⟨nm :: ns, by simp [resolveIds, hgl, hns]⟩

/-- Inserting a fresh key into the association list appends it. -/
theorem insertAssoc_append_of_not_mem {α β : Type} [DecidableEq α]
    (l : List (α × β)) (key : α) (val : β) (h : key ∉ l.map Prod.fst) :
    insertAssoc key val l = l ++ [(key, val)] := by
  induction l with
  | nil => rfl
  | cons p rest ih =>
      simp only [List.map_cons, List.mem_cons, not_or] at h
      have hp : ¬p.1 = key := fun hc => h.1 hc.symm
      simp [insertAssoc, hp, ih h.2]

/-- The wire-building loop distributes over appending one resolved
entry. -/
theorem tags_to_proto_tags_aux_append (map : BiMap) :
    ∀ (l : List (String × List String)) (specs : List TagSpec)
      (name : String) (names : List String) (entries : List Int),
      tags_to_proto_tags_aux map l = PanicOr.ret specs →
      resolveNames map names = PanicOr.ret entries →
      tags_to_proto_tags_aux map (l ++ [(name, names)])
        = PanicOr.ret (specs ++ [TagSpec.mk name entries]) := by
  intro l
  induction l with
  | nil =>
      intro specs name names entries hl hn
      simp only [tags_to_proto_tags_aux, PanicOr.ret.injEq] at hl
      subst hl
      simp [tags_to_proto_tags_aux, hn]
  | cons p rest ih =>
      intro specs name names entries hl hn
      rcases p with ⟨nm, ids⟩
      simp only [tags_to_proto_tags_aux] at hl
      cases hrn : resolveNames map ids with
      | panicked => rw [hrn] at hl; cases hl
      | ret es =>
          rw [hrn] at hl
          cases hrest : tags_to_proto_tags_aux map rest with
          | panicked => rw [hrest] at hl; cases hl
          | ret ss =>
              rw [hrest] at hl
              simp only [PanicOr.ret.injEq] at hl
              subst hl
              simp [tags_to_proto_tags_aux, hrn,
                ih ss name names entries hrest hn]

/-- The translation loop of `proto_tags_to_tags`, run on tags with
distinct fresh names whose ids are all in the dictionary, appends one
entry per tag, and translating the result back recovers the accumulated
wire list followed by the input tags. -/
theorem proto_tags_to_tags_aux_round (map : BiMap) (hWF : map.WF) :
    ∀ (x : List TagSpec) (acc : List (String × List String))
      (accSpec : List TagSpec),
      (∀ t ∈ x, ∀ id ∈ t.entries, (map.get_by_left id).isSome = true) →
      (x.map TagSpec.name).Nodup →
      (∀ t ∈ x, t.name ∉ acc.map Prod.fst) →
      tags_to_proto_tags_aux map acc = PanicOr.ret accSpec →
      ∃ result, proto_tags_to_tags_aux map x acc = PanicOr.ret result
        ∧ tags_to_proto_tags_aux map result = PanicOr.ret (accSpec ++ x) := by
  intro x
  induction x with
  | nil =>
      intro acc accSpec _ _ _ hacc
      exact ⟨acc, rfl, by simpa using hacc⟩
  | cons t rest ih =>
      intro acc accSpec hpresent hnames hdisj hacc
      obtain ⟨names, hnames1⟩ := resolveIds_ret_of_present map t.entries
        (hpresent t (List.mem_cons_self t rest))
      have hfresh : t.name ∉ acc.map Prod.fst :=
        hdisj t (List.mem_cons_self t rest)
      have hins : insertAssoc t.name names acc = acc ++ [(t.name, names)] :=
        insertAssoc_append_of_not_mem acc t.name names hfresh
      have hacc' : tags_to_proto_tags_aux map (insertAssoc t.name names acc)
          = PanicOr.ret (accSpec ++ [TagSpec.mk t.name t.entries]) := by
        rw [hins]
        exact tags_to_proto_tags_aux_append map acc accSpec t.name names
          t.entries hacc (resolveNames_resolveIds map hWF t.entries names hnames1)
      rw [List.map_cons] at hnames
      have hmem := List.nodup_cons.mp hnames
      have hnodup' := hmem.2
      have hdisj' : ∀ s ∈ rest, s.name ∉ (insertAssoc t.name names acc).map Prod.fst := by
        intro s hs
        rw [hins]
        simp only [List.map_append, List.mem_append, List.map_cons, List.map_nil,
          List.mem_singleton, not_or]
        refine ⟨hdisj s (List.mem_cons_of_mem t hs), ?_⟩
        intro hc
        exact hmem.1 (List.mem_map.mpr ⟨s, hs, hc⟩)
      obtain ⟨result, h1, h2⟩ := ih (insertAssoc t.name names acc)
        (accSpec ++ [TagSpec.mk t.name t.entries])
        (fun s hs => hpresent s (List.mem_cons_of_mem t hs)) hnodup' hdisj' hacc'
      refine ⟨result, ?_, ?_⟩
      · simpa [proto_tags_to_tags_aux, hnames1] using h1
      · rw [h2]
        simp

/-- The wire-building loop is stable under permuting its input, up to a
permutation of its output: reordering the entries a `HashMap` iteration
yields can only reorder the produced wire tags. -/
theorem tags_to_proto_tags_aux_perm (map : BiMap) :
    ∀ {l l' : List (String × List String)}, l.Perm l' →
      ∀ y : List TagSpec, tags_to_proto_tags_aux map l = PanicOr.ret y →
        ∃ y', tags_to_proto_tags_aux map l' = PanicOr.ret y' ∧ y.Perm y' := by
  intro l l' hp
  induction hp with
  | nil => exact fun y hy => ⟨y, hy, List.Perm.refl y⟩
  | cons p h ih =>
      rename_i l₁ l₂
      intro y hy
      rcases p with ⟨name, ids⟩
      simp only [tags_to_proto_tags_aux] at hy
      cases hrn : resolveNames map ids with
      | panicked => rw [hrn] at hy; cases hy
      | ret entries =>
          rw [hrn] at hy
          cases hl : tags_to_proto_tags_aux map l₁ with
          | panicked => rw [hl] at hy; cases hy
          | ret ys =>
              rw [hl] at hy
              simp only [PanicOr.ret.injEq] at hy
              subst hy
              obtain ⟨ys', hys', hperm⟩ := ih ys hl
              exact ⟨TagSpec.mk name entries :: ys',
                by simp [tags_to_proto_tags_aux, hrn, hys'],
                List.Perm.cons _ hperm⟩
  | swap a b l =>
      intro y hy
      rcases a with ⟨na, ia⟩
      rcases b with ⟨nb, ib⟩
      simp only [tags_to_proto_tags_aux] at hy
      cases hrb : resolveNames map ib with
      | panicked => rw [hrb] at hy; cases hy
      | ret eb =>
          rw [hrb] at hy
          cases hra : resolveNames map ia with
          | panicked => rw [hra] at hy; cases hy
          | ret ea =>
              rw [hra] at hy
              cases hl : tags_to_proto_tags_aux map l with
              | panicked => rw [hl] at hy; cases hy
              | ret ys =>
                  rw [hl] at hy
                  simp only [PanicOr.ret.injEq] at hy
                  subst hy
                  exact ⟨TagSpec.mk na ea :: TagSpec.mk nb eb :: ys,
                    by simp [tags_to_proto_tags_aux, hra, hrb, hl],
                    List.Perm.swap _ _ ys⟩
  | trans h1 h2 ih1 ih2 =>
      intro y hy
      obtain ⟨y1, hy1, hp1⟩ := ih1 y hy
      obtain ⟨y2, hy2, hp2⟩ := ih2 y1 hy1
      exact ⟨y2, hy2, hp1.trans hp2⟩

/-- C5 (amended: duplicate tag names collapse under the `HashMap`
insert, so the names of `x` are additionally assumed distinct — as they
are in a real `PlayTags` packet — and the `HashMap` iteration order of
`tags_to_proto_tags` is unspecified, so the rebuilt wire list is only
guaranteed up to permutation): for a per-kind wire tag list `x` whose
numeric ids are all present in the (well-formed) static dictionary and
whose tag names are distinct, the wire→Tags translation succeeds, and
translating back succeeds under EVERY iteration order of the resulting
map, always yielding a permutation of `x`. -/
theorem tags_round_trip (x : List TagSpec) (map : BiMap) (tl : TagList)
    (iter : List (String × List String))
    (hWF : map.WF)
    (hpresent : ∀ t ∈ x, ∀ id ∈ t.entries, (map.get_by_left id).isSome = true)
    (hnames : (x.map TagSpec.name).Nodup)
    (htl : proto_tags_to_tags x map = PanicOr.ret tl)
    (hiter : iter.Perm tl.pairs) :
    ∃ y, tags_to_proto_tags tl map iter hiter = PanicOr.ret y ∧ y.Perm x := by
  obtain ⟨result, h1, h2⟩ := proto_tags_to_tags_aux_round map hWF x [] []
    hpresent hnames (by simp) rfl
  simp only [proto_tags_to_tags, h1, PanicOr.ret.injEq] at htl
  subst htl
  have h2' : tags_to_proto_tags_aux map result = PanicOr.ret x := by simpa using h2
  obtain ⟨y, hy, hperm⟩ := tags_to_proto_tags_aux_perm map hiter.symm x h2'
  exact ⟨y, by simpa [tags_to_proto_tags] using hy, hperm.symm⟩

/-- A concrete well-formed two-entry dictionary. -/
def sampleDict : BiMap := ⟨[(1, "minecraft:stone"), (2, "minecraft:dirt")]⟩

/-- Witness for C5 (amended): a two-tag wire list with distinct names
and ids all present in `sampleDict`, rebuilt under the iteration order
that yields the map's two entries in the opposite of insertion order,
gives a permutation of the original list. -/
theorem tags_round_trip_witness :
    ∃ y, tags_to_proto_tags
        ⟨[("minecraft:base_stone", ["minecraft:stone", "minecraft:dirt"]),
          ("minecraft:logs", ["minecraft:dirt"])]⟩ sampleDict
        [("minecraft:logs", ["minecraft:dirt"]),
          ("minecraft:base_stone", ["minecraft:stone", "minecraft:dirt"])]
        (by decide)
      = PanicOr.ret y
    ∧ y.Perm [TagSpec.mk "minecraft:base_stone" [1, 2], TagSpec.mk "minecraft:logs" [2]] :=
  tags_round_trip
    [TagSpec.mk "minecraft:base_stone" [1, 2], TagSpec.mk "minecraft:logs" [2]]
    sampleDict
    ⟨[("minecraft:base_stone", ["minecraft:stone", "minecraft:dirt"]),
      ("minecraft:logs", ["minecraft:dirt"])]⟩
    [("minecraft:logs", ["minecraft:dirt"]),
      ("minecraft:base_stone", ["minecraft:stone", "minecraft:dirt"])]
    (by decide) (by decide) (by decide) (by decide) (by decide)

/-- C5, counterexample to the claim as stated: a wire list that repeats
a tag name — every id of which is present in the dictionary — does not
round-trip under any iteration order: the `HashMap` insert keeps only
the last entry for the name, so the translated map has a single entry,
that entry admits exactly one iteration order (its permutation list is
a singleton), and the rebuilt wire list differs from the input. -/
theorem tags_round_trip_counterexample :
    sampleDict.WF
    ∧ (∀ t ∈ [TagSpec.mk "minecraft:base_stone" [1],
          TagSpec.mk "minecraft:base_stone" [2]],
        ∀ id ∈ t.entries, (sampleDict.get_by_left id).isSome = true)
    ∧ proto_tags_to_tags
        [TagSpec.mk "minecraft:base_stone" [1], TagSpec.mk "minecraft:base_stone" [2]]
        sampleDict
      = PanicOr.ret ⟨[("minecraft:base_stone", ["minecraft:dirt"])]⟩
    ∧ ([("minecraft:base_stone", ["minecraft:dirt"])] :
          List (String × List String)).permutations'
      = [[("minecraft:base_stone", ["minecraft:dirt"])]]
    ∧ tags_to_proto_tags ⟨[("minecraft:base_stone", ["minecraft:dirt"])]⟩ sampleDict
        [("minecraft:base_stone", ["minecraft:dirt"])] (by decide)
      = PanicOr.ret [TagSpec.mk "minecraft:base_stone" [2]]
    ∧ [TagSpec.mk "minecraft:base_stone" [2]]
      ≠ [TagSpec.mk "minecraft:base_stone" [1], TagSpec.mk "minecraft:base_stone" [2]] := by
  refine ⟨by decide, by decide, by decide, by decide, by decide, by decide⟩

/-- An id absent from the dictionary makes id resolution panic. -/
theorem resolveIds_panicked_of_missing (map : BiMap) :
    ∀ ids : List Int, ∀ id ∈ ids, map.get_by_left id = Option.none →
      resolveIds map ids = PanicOr.panicked := by
  intro ids
  induction ids with
  | nil => intro id hid; cases hid
  | cons i rest ih =>
      intro id hid hnone
      rcases List.mem_cons.mp hid with hi | hi
      · subst hi
        simp [resolveIds, hnone]
      · cases hgl : map.get_by_left i with
        | none => simp [resolveIds, hgl]
        | some nm => simp [resolveIds, hgl, ih id hi hnone]

/-- The translation loop panics as soon as any tag holds a missing id,
whatever has been accumulated. -/
theorem proto_tags_to_tags_aux_panicked (map : BiMap) :
    ∀ (x : List TagSpec) (acc : List (String × List String)),
      (∃ t ∈ x, ∃ id ∈ t.entries, map.get_by_left id = Option.none) →
      proto_tags_to_tags_aux map x acc = PanicOr.panicked := by
  intro x
  induction x with
  | nil =>
      intro acc h
      rcases h with ⟨t, ht, _⟩
      cases ht
  | cons t rest ih =>
      intro acc h
      rcases h with ⟨s, hs, id, hid, hnone⟩
      rcases List.mem_cons.mp hs with hst | hst
      · subst hst
        simp [proto_tags_to_tags_aux,
          resolveIds_panicked_of_missing map s.entries id hid hnone]
      · cases hri : resolveIds map t.entries with
        | panicked => simp [proto_tags_to_tags_aux, hri]
        | ret names =>
            simp [proto_tags_to_tags_aux, hri,
              ih (insertAssoc t.name names acc) ⟨s, hst, id, hid, hnone⟩]

/-- C6 (amended): a wire tag list containing a numeric id absent from
the static dictionary of its kind makes `proto_tags_to_tags` hit the
`.unwrap()` and panic; the translation does not fail with a recoverable
`UnknownId` error, so the relay task does not drop the packet, log and
continue — it unwinds. -/
theorem proto_tags_unknown_id_panics (x : List TagSpec) (map : BiMap)
    (h : ∃ t ∈ x, ∃ id ∈ t.entries, map.get_by_left id = Option.none) :
    proto_tags_to_tags x map = PanicOr.panicked := by
  simp [proto_tags_to_tags, proto_tags_to_tags_aux_panicked map x [] h]

/-- Witness for C6 (amended): id 99 is not in `sampleDict`, so the
translation of a tag mentioning it panics. -/
theorem proto_tags_unknown_id_panics_witness :
    proto_tags_to_tags [TagSpec.mk "minecraft:logs" [1, 99]] sampleDict
      = PanicOr.panicked :=
  proto_tags_unknown_id_panics [TagSpec.mk "minecraft:logs" [1, 99]] sampleDict
    ⟨TagSpec.mk "minecraft:logs" [1, 99], by decide, 99, by decide, by decide⟩

/-- C6, counterexample to the claim as stated: on a wire list with the
unknown id 99 the translation panics — the result is `panicked`, not a
recoverable `UnknownId` error after which the packet could be dropped,
logged, and the relay continued. -/
theorem proto_tags_unknown_id_counterexample :
    sampleDict.get_by_left 99 = Option.none
    ∧ proto_tags_to_tags [TagSpec.mk "minecraft:base_stone" [99]] sampleDict
        = PanicOr.panicked := by
  refine ⟨by decide, by decide⟩
